import Mathlib

/-!
Shallow embedding of the `darksky` Go client library (weather-data HTTP API
client) and proofs about its request-construction, option-validation and
response-handling logic.

Conventions of the embedding:
* Go `string` is Lean `String`; Go `[]byte` bodies are carried as `String`
  (Go's `string(b)` conversion is then the identity).
* Go `float64` coordinates are embedded as `ℚ`; `int64` epoch seconds as `ℤ`.
* Go `error` values are an inductive `DSError` whose constructors model the
  distinct error identities of the source.
* Fallible Go functions return `Except`.
* The standard-library capabilities the code delegates to (`json.Unmarshal`,
  `gzip` decompression, the injected `HTTPClient`) are passed as explicit
  function parameters; the repository's own dispatch logic is embedded fully.
* The `*log.Logger` side channel is modelled by returning the list of logged
  messages, and body closing by returning a `Bool` recording whether
  `resp.Body.Close` was invoked.
-/

namespace Darksky

/-- Model of `strings.ToLower` restricted to the library's use: ASCII
lower-casing character by character.  `Char.toLower` lower-cases exactly the
ASCII range, which coincides with Go's `strings.ToLower` on ASCII strings;
every string in the allow-lists below is ASCII. -/
def strToLower (s : String) : String := ⟨s.data.map Char.toLower⟩

/-- Model of `toLower` from `request.go`: lower-cases every element of the
slice (the Go index loop building a new slice is a `map`). -/
def toLowerList (strs : List String) : List String := strs.map strToLower

/-- Model of `strings.Contains`: `pat` occurs as a contiguous substring. -/
def strContainsSubstr (s pat : String) : Bool :=
  s.data.tails.any (fun t => pat.data.isPrefixOf t)

/-- The distinct `error` values of the library (`request.go` and
`darksky.go`).  `unsupportedExcludeValue` is `excludeOptionError`;
`httpError c t` is `HTTPError(c, t)` = `fmt.Errorf("HTTP %d Error - %s", c, t)`;
`decodingError`/`gzipError`/`readError`/`transportError` carry the message of
the propagated standard-library error. -/
inductive DSError where
  | errLanguageNotSupported
  | errUnitNotSupported
  | errExcludeOptionNotUnique
  | unsupportedExcludeValue (value : String)
  | httpError (code : Nat) (txt : String)
  | decodingError (msg : String)
  | gzipError (msg : String)
  | readError (msg : String)
  | transportError (msg : String)
  deriving DecidableEq, Repr

/-- `url.Values` restricted to the library's use: after `url.Query()` on a
query-less URL it starts empty and is only ever modified through `Set`, so
each key holds exactly one value; an association list suffices. -/
def Query := List (String × String)

instance : DecidableEq Query := inferInstanceAs (DecidableEq (List (String × String)))

/-- `url.Values.Set`: replace any previous value for the key. -/
def Query.set (q : Query) (key value : String) : Query :=
  (List.filter (fun p => p.1 ≠ key) q) ++ [(key, value)]

/-- Supported languages allow-list from `request.go`. -/
def supportedLanguages : List String :=
  ["ar", "az", "be", "bg", "bs", "ca", "cs", "da", "de", "el", "en", "es",
   "et", "fi", "fr", "he", "hr", "hu", "id", "is", "it", "ja", "ka", "ko",
   "kw", "lv", "nb", "nl", "no", "pl", "pt", "ro", "ru", "sk", "sl", "sr",
   "sv", "te", "tr", "uk", "x-pig-latin", "zh", "zh-tw"]

/-- Supported exclude sections allow-list from `request.go`. -/
def supportedExclude : List String :=
  ["currently", "minutely", "hourly", "daily", "alerts", "flags"]

/-- Supported units allow-list from `request.go`. -/
def supportedUnits : List String := ["auto", "ca", "uk2", "us", "si"]

/-- `type Option func(*url.Values) error`, in state-passing form. -/
def OptionFn := Query → Except DSError Query

/-- The membership scan shared by `LanguageOption`, `ExcludeOption` and
`UnitOption`: `for _, sl := range list { if sl == x { supported = true } }`. -/
def supportedScan (list : List String) (x : String) : Bool :=
  list.foldl (fun acc sl => if sl = x then true else acc) false

/-- `LanguageOption` from `request.go`. -/
def languageOption (lang : String) : OptionFn := fun v =>
  let lowerLang := strToLower lang
  let supported := supportedScan supportedLanguages lowerLang
  if !supported then .error .errLanguageNotSupported
  else .ok (v.set "lang" lowerLang)

/-- `UnitOption` from `request.go`. -/
def unitOption (u : String) : OptionFn := fun v =>
  let lowerUnit := strToLower u
  let supported := supportedScan supportedUnits lowerUnit
  if !supported then .error .errUnitNotSupported
  else .ok (v.set "units" lowerUnit)

/-- `ExtendOption` from `request.go`. -/
def extendOption : OptionFn := fun v => .ok (v.set "extend" "hourly")

/-- The `for _, e := range lowerExcludes` loop body of `ExcludeOption`:
checks the allow-list first, then the duplicate count of `e` in the whole
lowered list (`all`), in that order. -/
def excludeLoop (all : List String) : List String → Except DSError Unit
  | [] => .ok ()
  | e :: rest =>
    let supported := supportedScan supportedExclude e
    if !supported then .error (.unsupportedExcludeValue e)
    else if all.count e > 1 then .error .errExcludeOptionNotUnique
    else excludeLoop all rest

/-- `ExcludeOption` from `request.go`: lower-cases the list, runs the
validation loop over the lowered list, and on success sets
`exclude=[a,b,...]` (bracketed, comma-joined, lower-cased). -/
def excludeOption (ex : List String) : OptionFn := fun v =>
  let lowerExcludes := toLowerList ex
  match excludeLoop lowerExcludes lowerExcludes with
  | .error e => .error e
  | .ok () => .ok (v.set "exclude" ("[" ++ String.intercalate "," lowerExcludes ++ "]"))

/-- UTF-8 encoding of a code point, as `[]byte(string)` would produce. -/
def utf8Bytes (c : Char) : List Nat :=
  let n := c.toNat
  if n < 128 then [n]
  else if n < 2048 then [192 + n / 64, 128 + n % 64]
  else if n < 65536 then [224 + n / 4096, 128 + (n / 64) % 64, 128 + n % 64]
  else [240 + n / 262144, 128 + (n / 4096) % 64, 128 + (n / 64) % 64, 128 + n % 64]

/-- Bytes `url.QueryEscape` leaves unescaped: ALPHA / DIGIT / - _ . ~ -/
def isUnreservedByte (b : Nat) : Bool :=
  (65 ≤ b && b ≤ 90) || (97 ≤ b && b ≤ 122) || (48 ≤ b && b ≤ 57) ||
  b = 45 || b = 95 || b = 46 || b = 126

/-- Upper-case hexadecimal digit, as Go's URL escaping emits. -/
def hexDigit (n : Nat) : Char :=
  if n < 10 then Char.ofNat (48 + n) else Char.ofNat (55 + n)

/-- One byte of `url.QueryEscape` output: kept, `' '` → `'+'`, or `%XX`. -/
def escapeByte (b : Nat) : String :=
  if isUnreservedByte b then ⟨[Char.ofNat b]⟩
  else if b = 32 then "+"
  else ⟨['%', hexDigit (b / 16), hexDigit (b % 16)]⟩

/-- Model of `url.QueryEscape`. -/
def queryEscape (s : String) : String :=
  String.join (((s.data.map utf8Bytes).flatten).map escapeByte)

/-- Insertion into a key-sorted association list (`url.Values.Encode` sorts
the keys before serializing). -/
def insertSorted (p : String × String) : List (String × String) → List (String × String)
  | [] => [p]
  | q :: rest => if p.1 < q.1 then p :: q :: rest else q :: insertSorted p rest

/-- Sort a query by key, as `url.Values.Encode` does. -/
def sortByKey (l : List (String × String)) : List (String × String) :=
  l.foldr insertSorted []

/-- Model of `url.Values.Encode` for single-valued keys: sorted
`k=v` pairs joined with `&`, both sides query-escaped. -/
def encode (q : Query) : String :=
  String.intercalate "&" ((sortByKey q).map (fun p => queryEscape p.1 ++ "=" ++ queryEscape p.2))

/-- Zero-padded 4-digit decimal fraction for `%3.4f`. -/
def padZeros4 (n : Nat) : String :=
  let s := toString n
  ⟨List.replicate (4 - s.length) '0'⟩ ++ s

/-- Model of `fmt.Sprintf("%3.4f", q)` on an exact rational: 4 fractional
digits, rounded to nearest.  (The minimum width 3 never pads, since the
output always has at least 6 characters.  Go rounds the decimal expansion of
the exact binary `float64`, which is never a tie at the 5th fractional
digit; on the exact decimal inputs used here no rounding occurs at all.) -/
def formatFixed4 (q : ℚ) : String :=
  let n : ℤ := round (|q| * 10000)
  let sign : String := if q < 0 then "-" else ""
  sign ++ toString (n / 10000) ++ "." ++ padZeros4 (n % 10000).toNat

/-- `basePath` constant from `request.go`. -/
def basePath : String := "forecast"

/-- Go's `int32(n)` conversion on an `int64`: two's-complement wraparound
into `[-2^31, 2^31 - 1]`. -/
def toInt32 (n : ℤ) : ℤ := (n + 2 ^ 31) % 2 ^ 32 - 2 ^ 31

/-- The parts of the built `*http.Request` this library determines: URL path,
encoded query string, and the headers it adds. -/
structure Request where
  path : String
  rawQuery : String
  headers : List (String × String)
  deriving DecidableEq, Repr

/-- The option-application loop of `newRequest`: apply each option in
caller order, stopping at the first failure. -/
def applyOptions : List OptionFn → Query → Except DSError Query
  | [], q => .ok q
  | o :: rest, q =>
    match o q with
    | .error e => .error e
    | .ok q2 => applyOptions rest q2

/-- `newRequest` from `request.go`: starts from the empty query of a
query-less URL, applies the options, encodes the query and attaches the two
headers.  (`http.NewRequest` itself cannot fail on the URLs built here.) -/
def newRequest (path : String) (opts : List OptionFn) : Except DSError Request :=
  match applyOptions opts [] with
  | .error e => .error e
  | .ok q => .ok ⟨path, encode q, [("Accept-Encoding", "gzip"), ("Accept", "application/json")]⟩

/-- `newForecastRequest`: path `/forecast/{secret}/{lat},{lng}` with `%3.4f`
coordinates. -/
def newForecastRequest (secret : String) (lat lng : ℚ) (opts : List OptionFn) :
    Except DSError Request :=
  newRequest ("/" ++ basePath ++ "/" ++ secret ++ "/" ++ formatFixed4 lat ++ "," ++
    formatFixed4 lng) opts

/-- `newTimeMachineRequest`: forecast path plus `,{int32(t.Unix())}`. -/
def newTimeMachineRequest (secret : String) (lat lng : ℚ) (t : ℤ) (opts : List OptionFn) :
    Except DSError Request :=
  newRequest ("/" ++ basePath ++ "/" ++ secret ++ "/" ++ formatFixed4 lat ++ "," ++
    formatFixed4 lng ++ "," ++ toString (toInt32 t)) opts

/-- `DataPoint` from `darksky.go`: `float64` fields as `ℚ`, `int64` as `ℤ`. -/
structure DataPoint where
  apparentTemperature : ℚ := 0
  apparentTemperatureHigh : ℚ := 0
  apparentTemperatureHighTime : ℤ := 0
  apparentTemperatureLow : ℚ := 0
  apparentTemperatureLowTime : ℤ := 0
  cloudCover : ℚ := 0
  dewPoint : ℚ := 0
  humidity : ℚ := 0
  icon : String := ""
  moonPhase : ℚ := 0
  nearestStormBearing : ℤ := 0
  nearestStormDistance : ℤ := 0
  ozone : ℚ := 0
  precipAccumulation : ℚ := 0
  precipIntensity : ℚ := 0
  precipIntensityError : ℚ := 0
  precipIntensityMax : ℚ := 0
  precipIntensityMaxTime : ℤ := 0
  precipProbability : ℚ := 0
  precipType : String := ""
  pressure : ℚ := 0
  summary : String := ""
  sunriseTime : ℤ := 0
  sunsetTime : ℤ := 0
  temperature : ℚ := 0
  temperatureHigh : ℚ := 0
  temperatureHighTime : ℤ := 0
  temperatureLow : ℚ := 0
  temperatureLowTime : ℤ := 0
  time : ℤ := 0
  uvIndex : ℤ := 0
  uvIndexTime : ℤ := 0
  visibility : ℚ := 0
  windBearing : ℚ := 0
  windGust : ℚ := 0
  windGustTime : ℤ := 0
  windSpeed : ℚ := 0
  deriving Inhabited

/-- `DataBlock` from `darksky.go`. -/
structure DataBlock where
  data : List DataPoint := []
  summary : String := ""
  icon : String := ""
  deriving Inhabited

/-- `Alert` from `darksky.go`. -/
structure Alert where
  description : String := ""
  expires : ℤ := 0
  regions : List String := []
  severity : String := ""
  time : ℤ := 0
  title : String := ""
  uri : String := ""
  deriving Inhabited

/-- `Flags` from `darksky.go`. -/
structure Flags where
  darkskyUnavailable : String := ""
  sources : List String := []
  nearestStation : ℚ := 0
  units : String := ""
  deriving Inhabited

/-- `APIData` from `darksky.go`: the whole weather payload. -/
structure APIData where
  latitude : ℚ := 0
  longitude : ℚ := 0
  timezone : String := ""
  currently : DataPoint := {}
  minutely : DataBlock := {}
  hourly : DataBlock := {}
  daily : DataBlock := {}
  alerts : List Alert := []
  flags : Flags := {}
  deriving Inhabited

/-- `apiError` from `darksky.go`: the JSON error record `{code, error}`. -/
structure ApiErrorRec where
  code : Nat
  err : String
  deriving DecidableEq, Repr

/-- The response body as this library observes it: the outcome of
`ioutil.ReadAll(resp.Body)` and the error, if any, that `resp.Body.Close()`
returns. -/
structure Body where
  readResult : Except String String
  closeErr : Option String

/-- The parts of an `*http.Response` this library reads. -/
structure Response where
  statusCode : Nat
  headers : List (String × String)
  body : Body

/-- `http.Header.Get`: first value for the key, `""` when absent. -/
def headerGet (hs : List (String × String)) (k : String) : String :=
  match hs.find? (fun p => p.1 = k) with
  | some p => p.2
  | none => ""

/-- The `close(c, l)` helper from `darksky.go` as seen through the logger: a
`Close` error is logged (and nothing else happens with it). -/
def closeLog (closeErr : Option String) : List String :=
  match closeErr with
  | some e => [e]
  | none => []

/-- `uncompressGzip` from `darksky.go`, with the gzip reader construction
and read (`gzip.NewReader` + `ioutil.ReadAll`) supplied as `gunzip`; either
failure is returned to the caller unchanged. -/
def uncompressGzip (gunzip : String → Except String String) (body : String) :
    Except DSError String :=
  match gunzip body with
  | .error e => .error (.gzipError e)
  | .ok b => .ok b

/-- `extractContent` from `darksky.go`.  Output: (result, whether
`resp.Body.Close` was invoked, messages sent to the logger).  The source
registers `defer close(resp.Body, logger)` only after the `ReadAll` error
check, so on the read-failure path the body is never closed.  The gzip
reader closed inside `uncompressGzip` is a different closer (not the
response body) and cannot influence the result; its log line is elided from
the trace. -/
def extractContent (gunzip : String → Except String String) (resp : Response) :
    Except DSError String × Bool × List String :=
  match resp.body.readResult with
  | .error e => (.error (.readError e), false, [])
  | .ok content =>
    let res :=
      if headerGet resp.headers "Content-Encoding" = "gzip" then
        uncompressGzip gunzip content
      else .ok content
    (res, true, closeLog resp.body.closeErr)

/-- The final `json.Unmarshal(content, &data)` of `unmarshalContent`, with
the JSON decoding supplied as `dData`. -/
def parsePayload (dData : String → Except String APIData) (content : String) :
    Except DSError APIData :=
  match dData content with
  | .error e => .error (.decodingError e)
  | .ok d => .ok d

/-- `unmarshalContent` from `darksky.go`: on status ≥ 400 dispatches on
`Content-Type` (`text/plain` exact match → literal-body `HTTPError`;
contains `application/json` → decode the `apiError` record, failing with the
decode error, else `HTTPError` with the record's message); every other case,
including every other content type on an error status, falls through to the
payload parse. -/
def unmarshalContent (dApi : String → Except String ApiErrorRec)
    (dData : String → Except String APIData) (resp : Response) (content : String) :
    Except DSError APIData :=
  if 400 ≤ resp.statusCode then
    let contentType := headerGet resp.headers "Content-Type"
    if contentType = "text/plain" then
      .error (.httpError resp.statusCode content)
    else if strContainsSubstr contentType "application/json" then
      match dApi content with
      | .error e => .error (.decodingError e)
      | .ok d => .error (.httpError resp.statusCode d.err)
    else parsePayload dData content
  else parsePayload dData content

/-- The response-side tail of `handleRequest`: `extractContent` then
`unmarshalContent`, propagating the first failure, threading the body-closed
flag and the logged messages. -/
def processResponse (gunzip : String → Except String String)
    (dApi : String → Except String ApiErrorRec) (dData : String → Except String APIData)
    (resp : Response) : Except DSError APIData × Bool × List String :=
  let (contentRes, closed, lg) := extractContent gunzip resp
  match contentRes with
  | .error e => (.error e, closed, lg)
  | .ok content => (unmarshalContent dApi dData resp content, closed, lg)

/-- The injected `HTTPClient.Do`: a transport taking the built request to a
response or a transport error. -/
def Client := Request → Except String Response

/-- `API` from `darksky.go`; the logger is modelled by the message trace in
the results. -/
structure API where
  secret : String
  client : Client

/-- `handleRequest` from `darksky.go`. -/
def handleRequest (api : API) (gunzip : String → Except String String)
    (dApi : String → Except String ApiErrorRec) (dData : String → Except String APIData)
    (r : Request) : Except DSError APIData × Bool × List String :=
  match api.client r with
  | .error e => (.error (.transportError e), false, [])
  | .ok resp => processResponse gunzip dApi dData resp

/-- `API.Forecast` from `darksky.go`: build the forecast request, then
handle it; a request-build failure is returned before the client is ever
invoked. -/
def forecast (api : API) (gunzip : String → Except String String)
    (dApi : String → Except String ApiErrorRec) (dData : String → Except String APIData)
    (lat lng : ℚ) (opts : List OptionFn) : Except DSError APIData × Bool × List String :=
  match newForecastRequest api.secret lat lng opts with
  | .error e => (.error e, false, [])
  | .ok r => handleRequest api gunzip dApi dData r

/-- `API.TimeMachine` from `darksky.go`. -/
def timeMachine (api : API) (gunzip : String → Except String String)
    (dApi : String → Except String ApiErrorRec) (dData : String → Except String APIData)
    (lat lng : ℚ) (t : ℤ) (opts : List OptionFn) :
    Except DSError APIData × Bool × List String :=
  match newTimeMachineRequest api.secret lat lng t opts with
  | .error e => (.error e, false, [])
  | .ok r => handleRequest api gunzip dApi dData r

end Darksky

deriving instance DecidableEq for Except

namespace Darksky

/-! ## Helper lemmas -/

/-- The Go membership scan computes list membership. -/
lemma supportedScan_eq_mem (l : List String) (x : String) :
    supportedScan l x = decide (x ∈ l) := by
  suffices h : ∀ b, l.foldl (fun acc sl => if sl = x then true else acc) b
      = (b || decide (x ∈ l)) by
    simpa [supportedScan] using h false
  induction l with
  | nil => intro b; simp
  | cons a t ih =>
    intro b
    rw [List.foldl_cons, ih]
    by_cases h : a = x
    · subst h; simp
    · simp [h, Ne.symm h]

/-- Applying a concatenation of options: the first failure wins. -/
lemma applyOptions_append (xs ys : List OptionFn) (q : Query) :
    applyOptions (xs ++ ys) q =
      match applyOptions xs q with
      | .error e => .error e
      | .ok q2 => applyOptions ys q2 := by
  induction xs generalizing q with
  | nil => simp [applyOptions]
  | cons o rest ih =>
    simp only [List.cons_append, applyOptions]
    cases o q with
    | error e => rfl
    | ok q2 => exact ih q2

/-! ## C3 -/

/--
C3: for every string whose case-normalization lies in the language
allow-list, `LanguageOption` succeeds and sets `lang` to the lower-cased
canonical code; likewise `UnitOption` sets `units` for every casing of a
supported unit code.
-/
theorem languageAndUnitOption_casing (lang u : String) (q : Query) :
    (strToLower lang ∈ supportedLanguages →
      languageOption lang q = .ok (q.set "lang" (strToLower lang))) ∧
    (strToLower u ∈ supportedUnits →
      unitOption u q = .ok (q.set "units" (strToLower u))) := by
  constructor
  · intro h
    simp [languageOption, supportedScan_eq_mem, h]
  · intro h
    simp [unitOption, supportedScan_eq_mem, h]

/-- Witness for C3 at `"EN"` / `"CA"` on the empty query. -/
theorem languageAndUnitOption_casing_witness :
    (strToLower "EN" ∈ supportedLanguages ∧
      languageOption "EN" [] = .ok (Query.set [] "lang" (strToLower "EN"))) ∧
    (strToLower "CA" ∈ supportedUnits ∧
      unitOption "CA" [] = .ok (Query.set [] "units" (strToLower "CA"))) :=
  ⟨⟨by decide, (languageAndUnitOption_casing "EN" "CA" []).1 (by decide)⟩,
   ⟨by decide, (languageAndUnitOption_casing "EN" "CA" []).2 (by decide)⟩⟩

/-! ## C5 -/

/-- If every element of the (lowered) list is supported and some element is
duplicated in `all`, the `ExcludeOption` loop fails with the
not-unique error. -/
lemma excludeLoop_notUnique (all l : List String)
    (hsup : ∀ e ∈ l, e ∈ supportedExclude)
    (hdup : ∃ e ∈ l, 1 < all.count e) :
    excludeLoop all l = .error .errExcludeOptionNotUnique := by
  induction l with
  | nil => obtain ⟨e, he, _⟩ := hdup; cases he
  | cons a t ih =>
    have ha : a ∈ supportedExclude := hsup a (List.mem_cons_self a t)
    rw [excludeLoop]
    simp only [supportedScan_eq_mem, decide_eq_true ha, Bool.not_true]
    rw [if_neg (by simp)]
    by_cases hca : all.count a > 1
    · rw [if_pos hca]
    · rw [if_neg hca]
      apply ih (fun e he => hsup e (List.mem_cons_of_mem a he))
      obtain ⟨e, he, hc⟩ := hdup
      rcases List.mem_cons.mp he with rfl | het
      · exact absurd hc hca
      · exact ⟨e, het, hc⟩

/--
C5 counterexample: the exclude list `["nope", "nope"]` contains a
case-insensitive duplicate, yet `ExcludeOption` fails with the
value-carrying unsupported error, not `ErrExcludeOptionNotUnique`: the
loop checks allow-list membership before uniqueness.
-/
theorem excludeOption_duplicate_counterexample :
    excludeOption ["nope", "nope"] [] = .error (.unsupportedExcludeValue "nope") ∧
    excludeOption ["nope", "nope"] [] ≠ .error .errExcludeOptionNotUnique := by
  constructor
  · decide
  · decide

/--
C5 amended: for every exclude list all of whose entries are in the
allow-list after lower-casing and which contains a case-insensitive
duplicate, `ExcludeOption` fails with `ErrExcludeOptionNotUnique`.
-/
theorem excludeOption_duplicate_notUnique (ex : List String) (q : Query)
    (hsup : ∀ s ∈ ex, strToLower s ∈ supportedExclude)
    (hdup : ¬ (toLowerList ex).Nodup) :
    excludeOption ex q = .error .errExcludeOptionNotUnique := by
  obtain ⟨e, h2⟩ : ∃ e, 1 < (toLowerList ex).count e := by
    by_contra h
    push_neg at h
    exact hdup (List.nodup_iff_count_le_one.mpr h)
  have he : e ∈ toLowerList ex := List.count_pos_iff.mp (by omega)
  have hs : ∀ x ∈ toLowerList ex, x ∈ supportedExclude := by
    intro x hx
    obtain ⟨s, hsx, rfl⟩ := List.mem_map.mp hx
    exact hsup s hsx
  rw [excludeOption]
  rw [excludeLoop_notUnique _ _ hs ⟨e, he, h2⟩]

/-- Witness for the amended C5 at `["hourly", "HOURLY"]`. -/
theorem excludeOption_duplicate_notUnique_witness :
    (∀ s ∈ ["hourly", "HOURLY"], strToLower s ∈ supportedExclude) ∧
    ¬ (toLowerList ["hourly", "HOURLY"]).Nodup ∧
    excludeOption ["hourly", "HOURLY"] [] = .error .errExcludeOptionNotUnique :=
  ⟨by decide, by decide,
    excludeOption_duplicate_notUnique ["hourly", "HOURLY"] [] (by decide) (by decide)⟩

/-! ## C6 -/

/-- Reaching the first unsupported entry: every earlier entry is supported
and unduplicated, so the loop fails on `bad` with the value-carrying
error. -/
lemma excludeLoop_unsupported (all pre : List String) (bad : String) (post : List String)
    (hpre_sup : ∀ e ∈ pre, e ∈ supportedExclude)
    (hpre_cnt : ∀ e ∈ pre, all.count e ≤ 1)
    (hbad : bad ∉ supportedExclude) :
    excludeLoop all (pre ++ bad :: post) = .error (.unsupportedExcludeValue bad) := by
  induction pre with
  | nil =>
    rw [List.nil_append, excludeLoop]
    simp only [supportedScan_eq_mem, decide_eq_false hbad, Bool.not_false]
    rw [if_pos trivial]
  | cons a t ih =>
    have ha : a ∈ supportedExclude := hpre_sup a (List.mem_cons_self a t)
    have hca : ¬ all.count a > 1 := by
      have := hpre_cnt a (List.mem_cons_self a t)
      omega
    rw [List.cons_append, excludeLoop]
    simp only [supportedScan_eq_mem, decide_eq_true ha, Bool.not_true]
    rw [if_neg (by simp), if_neg hca]
    exact ih (fun e he => hpre_sup e (List.mem_cons_of_mem a he))
      (fun e he => hpre_cnt e (List.mem_cons_of_mem a he))

/--
C6 counterexample: for the exclude list `["NOPE"]` the error carries the
lower-cased token `"nope"`, not the exact token `"NOPE"` as supplied by the
caller (the loop runs over the lowered copy of the list).
-/
theorem excludeOption_badToken_counterexample :
    excludeOption ["NOPE"] [] = .error (.unsupportedExcludeValue "nope") ∧
    excludeOption ["NOPE"] [] ≠ .error (.unsupportedExcludeValue "NOPE") := by
  constructor
  · decide
  · decide

/--
C6 amended: for every duplicate-free exclude list whose first unrecognized
token is `t` (all entries before `t` are supported after lower-casing),
`ExcludeOption` fails with the value-carrying unsupported-exclude-value
error echoing the lower-cased form of `t`.
-/
theorem excludeOption_badToken_lowered (pre post : List String) (t : String) (q : Query)
    (hnd : (toLowerList (pre ++ t :: post)).Nodup)
    (hpre : ∀ s ∈ pre, strToLower s ∈ supportedExclude)
    (ht : strToLower t ∉ supportedExclude) :
    excludeOption (pre ++ t :: post) q = .error (.unsupportedExcludeValue (strToLower t)) := by
  have hsplit : toLowerList (pre ++ t :: post)
      = toLowerList pre ++ strToLower t :: toLowerList post := by
    simp [toLowerList]
  have hcnt : ∀ e ∈ toLowerList pre, (toLowerList (pre ++ t :: post)).count e ≤ 1 := by
    intro e _
    exact List.nodup_iff_count_le_one.mp hnd e
  have hsup : ∀ e ∈ toLowerList pre, e ∈ supportedExclude := by
    intro x hx
    obtain ⟨s, hsx, rfl⟩ := List.mem_map.mp hx
    exact hpre s hsx
  rw [excludeOption]
  rw [show toLowerList (pre ++ t :: post)
        = toLowerList pre ++ strToLower t :: toLowerList post from hsplit] at hcnt ⊢
  rw [excludeLoop_unsupported _ _ _ _ hsup (hsplit ▸ hcnt) ht]

/-- Witness for the amended C6 at `["hourly", "NOPE"]`. -/
theorem excludeOption_badToken_lowered_witness :
    (toLowerList (["hourly"] ++ "NOPE" :: [])).Nodup ∧
    (∀ s ∈ ["hourly"], strToLower s ∈ supportedExclude) ∧
    strToLower "NOPE" ∉ supportedExclude ∧
    excludeOption (["hourly"] ++ "NOPE" :: []) []
      = .error (.unsupportedExcludeValue (strToLower "NOPE")) :=
  ⟨by decide, by decide, by decide,
    excludeOption_badToken_lowered ["hourly"] [] "NOPE" [] (by decide) (by decide) (by decide)⟩

/-! ## C4 -/

/--
C4: with every earlier option succeeding, a `Forecast` or `TimeMachine`
call whose option list carries a `LanguageOption` (resp. `UnitOption`) for
a code not in the allow-list after case-normalization fails with
`ErrLanguageNotSupported` (resp. `ErrUnitNotSupported`), whatever options
follow.  The conclusion holds for an arbitrary injected client and the
returned trace is `(false, [])` — no response was handled, so the
transport's `Do` was never invoked.
-/
theorem forecastAndTimeMachine_unsupportedOption
    (secret : String) (client : Client) (gunzip : String → Except String String)
    (dApi : String → Except String ApiErrorRec) (dData : String → Except String APIData)
    (lat lng : ℚ) (t : ℤ) (pre post : List OptionFn) (lang u : String) (q0 : Query)
    (hpre : applyOptions pre [] = .ok q0)
    (hlang : strToLower lang ∉ supportedLanguages)
    (hunit : strToLower u ∉ supportedUnits) :
    forecast ⟨secret, client⟩ gunzip dApi dData lat lng (pre ++ languageOption lang :: post)
      = (.error .errLanguageNotSupported, false, []) ∧
    timeMachine ⟨secret, client⟩ gunzip dApi dData lat lng t
        (pre ++ languageOption lang :: post)
      = (.error .errLanguageNotSupported, false, []) ∧
    forecast ⟨secret, client⟩ gunzip dApi dData lat lng (pre ++ unitOption u :: post)
      = (.error .errUnitNotSupported, false, []) ∧
    timeMachine ⟨secret, client⟩ gunzip dApi dData lat lng t (pre ++ unitOption u :: post)
      = (.error .errUnitNotSupported, false, []) := by
  have hL : ∀ q : Query, languageOption lang q = .error .errLanguageNotSupported := by
    intro q
    simp [languageOption, supportedScan_eq_mem, hlang]
  have hU : ∀ q : Query, unitOption u q = .error .errUnitNotSupported := by
    intro q
    simp [unitOption, supportedScan_eq_mem, hunit]
  have hAL : applyOptions (pre ++ languageOption lang :: post) []
      = .error .errLanguageNotSupported := by
    rw [applyOptions_append, hpre]
    simp [applyOptions, hL q0]
  have hAU : applyOptions (pre ++ unitOption u :: post) []
      = .error .errUnitNotSupported := by
    rw [applyOptions_append, hpre]
    simp [applyOptions, hU q0]
  refine ⟨?_, ?_, ?_, ?_⟩ <;>
    simp [forecast, timeMachine, newForecastRequest, newTimeMachineRequest, newRequest,
      hAL, hAU]

/-- Witness for C4: a concrete rejected language option on a concrete API. -/
theorem forecastAndTimeMachine_unsupportedOption_witness :
    applyOptions [] [] = .ok ([] : Query) ∧
    strToLower "xx" ∉ supportedLanguages ∧
    strToLower "zz" ∉ supportedUnits ∧
    forecast ⟨"s", fun _ => .error "down"⟩ (fun s => .ok s) (fun _ => .error "ae")
        (fun _ => .error "pe") 0 0 ([] ++ languageOption "xx" :: [])
      = (.error .errLanguageNotSupported, false, []) :=
  ⟨rfl, by decide, by decide,
    (forecastAndTimeMachine_unsupportedOption "s" (fun _ => .error "down") (fun s => .ok s)
      (fun _ => .error "ae") (fun _ => .error "pe") 0 0 0 [] [] "xx" "zz" []
      rfl (by decide) (by decide)).1⟩

/-! ## C1 -/

/--
C1: on a response with status ≥ 400, an exact `text/plain` content type
yields `HTTPError(status, body)` with the literal body as message; a
content type containing `application/json` decodes the body as the
`{code, error}` record and yields `HTTPError(status, record.error)` when
the decode succeeds, and the decode's own error when it fails.
-/
theorem unmarshalContent_errorDispatch
    (dApi : String → Except String ApiErrorRec) (dData : String → Except String APIData)
    (resp : Response) (content : String) (h4 : 400 ≤ resp.statusCode) :
    (headerGet resp.headers "Content-Type" = "text/plain" →
      unmarshalContent dApi dData resp content
        = .error (.httpError resp.statusCode content)) ∧
    (strContainsSubstr (headerGet resp.headers "Content-Type") "application/json" = true →
      (∀ c msg, dApi content = .ok ⟨c, msg⟩ →
        unmarshalContent dApi dData resp content
          = .error (.httpError resp.statusCode msg)) ∧
      (∀ e, dApi content = .error e →
        unmarshalContent dApi dData resp content = .error (.decodingError e))) := by
  constructor
  · intro hct
    simp only [unmarshalContent]
    rw [if_pos h4, if_pos hct]
  · intro hjson
    have hne : headerGet resp.headers "Content-Type" ≠ "text/plain" := by
      intro h
      rw [h] at hjson
      exact absurd hjson (by decide)
    constructor
    · intro c msg hapi
      simp only [unmarshalContent]
      rw [if_pos h4, if_neg hne, if_pos hjson, hapi]
    · intro e hapi
      simp only [unmarshalContent]
      rw [if_pos h4, if_neg hne, if_pos hjson, hapi]

/-- Witness for C1: the spec's two examples — a 403 `text/plain`
"Unauthorized" response, and a 400 `application/json` response whose body
decodes to the record `{code: 400, error: "Location out of bounds"}`. -/
theorem unmarshalContent_errorDispatch_witness :
    (400 ≤ 403 ∧
      unmarshalContent (fun _ => .error "ae") (fun _ => .error "pe")
          ⟨403, [("Content-Type", "text/plain")], ⟨.ok "Unauthorized", none⟩⟩ "Unauthorized"
        = .error (.httpError 403 "Unauthorized")) ∧
    (400 ≤ 400 ∧
      unmarshalContent (fun _ => .ok ⟨400, "Location out of bounds"⟩) (fun _ => .error "pe")
          ⟨400, [("Content-Type", "application/json")],
            ⟨.ok "\x7b\"code\":400,\"error\":\"Location out of bounds\"\x7d", none⟩⟩
          "\x7b\"code\":400,\"error\":\"Location out of bounds\"\x7d"
        = .error (.httpError 400 "Location out of bounds")) :=
  ⟨⟨by decide,
    (unmarshalContent_errorDispatch (fun _ => .error "ae") (fun _ => .error "pe")
      ⟨403, [("Content-Type", "text/plain")], ⟨.ok "Unauthorized", none⟩⟩ "Unauthorized"
      (by decide)).1 (by decide)⟩,
   ⟨by decide,
    ((unmarshalContent_errorDispatch (fun _ => .ok ⟨400, "Location out of bounds"⟩)
      (fun _ => .error "pe")
      ⟨400, [("Content-Type", "application/json")],
        ⟨.ok "\x7b\"code\":400,\"error\":\"Location out of bounds\"\x7d", none⟩⟩
      "\x7b\"code\":400,\"error\":\"Location out of bounds\"\x7d"
      (by decide)).2 (by decide)).1 400 "Location out of bounds" rfl⟩⟩

/-! ## C8 -/

/--
C8: on a response with status ≥ 400 whose content type is neither exactly
`text/plain` nor contains `application/json`, no `HTTPError` is built: the
handler falls through to the ordinary weather-payload parse and returns its
result (payload or deserialization error).
-/
theorem unmarshalContent_otherContentType
    (dApi : String → Except String ApiErrorRec) (dData : String → Except String APIData)
    (resp : Response) (content : String) (h4 : 400 ≤ resp.statusCode)
    (h1 : headerGet resp.headers "Content-Type" ≠ "text/plain")
    (h2 : strContainsSubstr (headerGet resp.headers "Content-Type") "application/json"
      = false) :
    unmarshalContent dApi dData resp content = parsePayload dData content := by
  simp only [unmarshalContent]
  rw [if_pos h4, if_neg h1, if_neg (by rw [h2]; exact Bool.false_ne_true)]

/-- Witness for C8: a 500 response with content type `text/html` falls
through to the payload parse and surfaces its deserialization error. -/
theorem unmarshalContent_otherContentType_witness :
    400 ≤ 500 ∧
    headerGet [("Content-Type", "text/html")] "Content-Type" ≠ "text/plain" ∧
    strContainsSubstr (headerGet [("Content-Type", "text/html")] "Content-Type")
      "application/json" = false ∧
    unmarshalContent (fun _ => .error "ae") (fun _ => .error "malformed")
        ⟨500, [("Content-Type", "text/html")], ⟨.ok "oops", none⟩⟩ "oops"
      = parsePayload (fun _ => .error "malformed") "oops" :=
  ⟨by decide, by decide, by decide,
    unmarshalContent_otherContentType (fun _ => .error "ae") (fun _ => .error "malformed")
      ⟨500, [("Content-Type", "text/html")], ⟨.ok "oops", none⟩⟩ "oops"
      (by decide) (by decide) (by decide)⟩

/-! ## C2 -/

/-- `unmarshalContent` reads only the status code and headers of the
response, never its body record. -/
lemma unmarshalContent_body_irrel
    (dApi : String → Except String ApiErrorRec) (dData : String → Except String APIData)
    (status : Nat) (hs : List (String × String)) (b1 b2 : Body) (content : String) :
    unmarshalContent dApi dData ⟨status, hs, b1⟩ content
      = unmarshalContent dApi dData ⟨status, hs, b2⟩ content := rfl

/--
C2: for every body `b` and its gzip compression `gz` (any `gz` that the
gzip reader inflates back to `b`), handling a 200 response carrying `gz`
with `Content-Encoding: gzip` produces exactly the same outcome — parsed
payload or error, body-closed flag and log trace — as handling a 200
response carrying `b` with no `Content-Encoding` header: decompression is
transparent to the caller.
-/
theorem processResponse_gzipTransparent
    (gunzip : String → Except String String) (dApi : String → Except String ApiErrorRec)
    (dData : String → Except String APIData) (b gz : String) (ce : Option String)
    (hrt : gunzip gz = .ok b) :
    processResponse gunzip dApi dData ⟨200, [("Content-Encoding", "gzip")], ⟨.ok gz, ce⟩⟩
      = processResponse gunzip dApi dData ⟨200, [], ⟨.ok b, ce⟩⟩ := by
  have hu : uncompressGzip gunzip gz = .ok b := by
    rw [uncompressGzip, hrt]
  have hL : extractContent gunzip ⟨200, [("Content-Encoding", "gzip")], ⟨.ok gz, ce⟩⟩
      = (uncompressGzip gunzip gz, true, closeLog ce) := rfl
  have hR : extractContent gunzip ⟨200, [], ⟨.ok b, ce⟩⟩
      = (.ok b, true, closeLog ce) := rfl
  have h200 : ∀ (hs : List (String × String)) (body : Body),
      unmarshalContent dApi dData ⟨200, hs, body⟩ b = parsePayload dData b := by
    intro hs body
    rw [unmarshalContent, if_neg (show ¬ (400 ≤ 200) by decide)]
  simp only [processResponse, hL, hR, hu, h200]

/-- Witness for C2 with a concrete inflater, body and payload decoder. -/
theorem processResponse_gzipTransparent_witness :
    (fun s => if s = "GZ" then Except.ok "PAYLOAD" else .error "corrupt") "GZ"
        = Except.ok "PAYLOAD" ∧
    processResponse (fun s => if s = "GZ" then Except.ok "PAYLOAD" else .error "corrupt")
        (fun _ => .error "ae")
        (fun s => if s = "PAYLOAD" then .ok {} else .error "bad json")
        ⟨200, [("Content-Encoding", "gzip")], ⟨.ok "GZ", none⟩⟩
      = processResponse (fun s => if s = "GZ" then Except.ok "PAYLOAD" else .error "corrupt")
        (fun _ => .error "ae")
        (fun s => if s = "PAYLOAD" then .ok {} else .error "bad json")
        ⟨200, [], ⟨.ok "PAYLOAD", none⟩⟩ :=
  ⟨rfl,
    processResponse_gzipTransparent
      (fun s => if s = "GZ" then Except.ok "PAYLOAD" else .error "corrupt")
      (fun _ => .error "ae")
      (fun s => if s = "PAYLOAD" then .ok {} else .error "bad json")
      "PAYLOAD" "GZ" none rfl⟩

/-! ## C7 -/

/--
C7 counterexample: on a response whose body read fails, the handler exits
with the read error and the body-closed flag `false` — `resp.Body.Close`
was never invoked, because the source registers the `defer` only after the
`ReadAll` error check.  This exit path contradicts the claim that the body
is closed on every exit path including the read-failure one.
-/
theorem processResponse_readFailure_notClosed :
    processResponse (fun s => .ok s) (fun _ => .error "ae") (fun _ => .error "pe")
        ⟨200, [], ⟨.error "read failure", some "close failure"⟩⟩
      = (.error (.readError "read failure"), false, []) := rfl

/--
C7 amended: on every invocation whose body read succeeds, the body is
closed on every exit path — including gzip-decompression failure and both
outcomes of the payload parse — and a `Close` error is only written to the
diagnostic logger: the result is identical to the run where closing
succeeds, with the close error appended to the log.  (On the read-failure
path the body is not closed; see the counterexample.)
-/
theorem processResponse_closeError_onlyLogged
    (gunzip : String → Except String String) (dApi : String → Except String ApiErrorRec)
    (dData : String → Except String APIData) (status : Nat)
    (hs : List (String × String)) (content : String) (ce : String) :
    (processResponse gunzip dApi dData ⟨status, hs, ⟨.ok content, some ce⟩⟩).1
      = (processResponse gunzip dApi dData ⟨status, hs, ⟨.ok content, none⟩⟩).1 ∧
    (processResponse gunzip dApi dData ⟨status, hs, ⟨.ok content, some ce⟩⟩).2.1 = true ∧
    (processResponse gunzip dApi dData ⟨status, hs, ⟨.ok content, none⟩⟩).2.1 = true ∧
    (processResponse gunzip dApi dData ⟨status, hs, ⟨.ok content, some ce⟩⟩).2.2
      = (processResponse gunzip dApi dData ⟨status, hs, ⟨.ok content, none⟩⟩).2.2 ++ [ce] := by
  cases hR : (if headerGet hs "Content-Encoding" = "gzip" then
      uncompressGzip gunzip content else .ok content) with
  | error e =>
    refine ⟨?_, ?_, ?_, ?_⟩ <;>
      simp [processResponse, extractContent, closeLog, hR]
  | ok c =>
    refine ⟨?_, ?_, ?_, ?_⟩
    · simp only [processResponse, extractContent, hR]
      exact unmarshalContent_body_irrel dApi dData status hs _ _ c
    · simp [processResponse, extractContent, closeLog, hR]
    · simp [processResponse, extractContent, closeLog, hR]
    · simp [processResponse, extractContent, closeLog, hR]

/-! ## C9 -/

/-- `%3.4f` of the example latitude. -/
lemma formatFixed4_lat : formatFixed4 (37.8267 : ℚ) = "37.8267" := by
  have h : round (|(37.8267 : ℚ)| * 10000) = 378267 := by
    rw [round_eq, Int.floor_eq_iff]
    rw [abs_of_nonneg (by norm_num)]
    norm_num
  have hneg : ¬ ((37.8267 : ℚ) < 0) := by norm_num
  simp only [formatFixed4, h, if_neg hneg]
  decide

/-- `%3.4f` of the example longitude. -/
lemma formatFixed4_lng : formatFixed4 (-122.4233 : ℚ) = "-122.4233" := by
  have h : round (|(-122.4233 : ℚ)| * 10000) = 1224233 := by
    rw [round_eq, Int.floor_eq_iff]
    rw [abs_of_nonpos (by norm_num)]
    norm_num
  have hneg : (-122.4233 : ℚ) < 0 := by norm_num
  simp only [formatFixed4, if_pos hneg, h]
  decide

/--
C9: the forecast request for latitude 37.8267 and longitude -122.4233 with
no options has URL path `/forecast/{secret}/37.8267,-122.4233` and an empty
query string; with the single option `UnitOption("ca")` it has the same
path and query string `units=ca`.
-/
theorem newForecastRequest_roundTrip (secret : String) :
    newForecastRequest secret (37.8267 : ℚ) (-122.4233 : ℚ) []
      = .ok ⟨"/forecast/" ++ secret ++ "/37.8267,-122.4233", "",
          [("Accept-Encoding", "gzip"), ("Accept", "application/json")]⟩ ∧
    newForecastRequest secret (37.8267 : ℚ) (-122.4233 : ℚ) [unitOption "ca"]
      = .ok ⟨"/forecast/" ++ secret ++ "/37.8267,-122.4233", "units=ca",
          [("Accept-Encoding", "gzip"), ("Accept", "application/json")]⟩ := by
  have hpath : "/" ++ basePath ++ "/" ++ secret ++ "/" ++ formatFixed4 (37.8267 : ℚ)
      ++ "," ++ formatFixed4 (-122.4233 : ℚ)
      = "/forecast/" ++ secret ++ "/37.8267,-122.4233" := by
    rw [formatFixed4_lat, formatFixed4_lng]
    rw [show basePath = "forecast" from rfl]
    simp only [String.append_assoc]
    rw [show ("/" ++ ("37.8267" ++ ("," ++ "-122.4233")) : String)
      = "/37.8267,-122.4233" by decide]
    rw [← String.append_assoc, ← String.append_assoc]
    rw [show ("/" ++ "forecast" ++ "/" : String) = "/forecast/" by decide]
  constructor
  · rw [newForecastRequest, show (newRequest
      ("/" ++ basePath ++ "/" ++ secret ++ "/" ++ formatFixed4 (37.8267 : ℚ) ++ ","
        ++ formatFixed4 (-122.4233 : ℚ)) [] : Except DSError Request)
      = .ok ⟨"/" ++ basePath ++ "/" ++ secret ++ "/" ++ formatFixed4 (37.8267 : ℚ) ++ ","
        ++ formatFixed4 (-122.4233 : ℚ), "",
        [("Accept-Encoding", "gzip"), ("Accept", "application/json")]⟩ from rfl, hpath]
  · rw [newForecastRequest, show (newRequest
      ("/" ++ basePath ++ "/" ++ secret ++ "/" ++ formatFixed4 (37.8267 : ℚ) ++ ","
        ++ formatFixed4 (-122.4233 : ℚ)) [unitOption "ca"] : Except DSError Request)
      = .ok ⟨"/" ++ basePath ++ "/" ++ secret ++ "/" ++ formatFixed4 (37.8267 : ℚ) ++ ","
        ++ formatFixed4 (-122.4233 : ℚ), encode [("units", "ca")],
        [("Accept-Encoding", "gzip"), ("Accept", "application/json")]⟩ from rfl, hpath,
      show encode [("units", "ca")] = "units=ca" by decide]

/-! ## C10 -/

/--
C10: the timestamp segment of the time-machine request path is
`int32(t.Unix())`: the epoch seconds reduced modulo 2^32 into
[-2^31, 2^31 - 1].  Consequently the encoded timestamp is congruent to the
true epoch seconds modulo 2^32, and differs from them whenever they lie
outside the signed 32-bit range (e.g. any instant after
2038-01-19T03:14:07Z).
-/
theorem newTimeMachineRequest_timestampTruncated (secret : String) (lat lng : ℚ) (t : ℤ) :
    newTimeMachineRequest secret lat lng t []
      = .ok ⟨"/" ++ basePath ++ "/" ++ secret ++ "/" ++ formatFixed4 lat ++ ","
          ++ formatFixed4 lng ++ "," ++ toString (toInt32 t), "",
          [("Accept-Encoding", "gzip"), ("Accept", "application/json")]⟩ ∧
    -(2 ^ 31) ≤ toInt32 t ∧ toInt32 t ≤ 2 ^ 31 - 1 ∧
    (2 ^ 32 : ℤ) ∣ t - toInt32 t ∧
    ((t < -(2 ^ 31) ∨ 2 ^ 31 - 1 < t) → toInt32 t ≠ t) := by
  have h31 : ((2 : ℤ) ^ 31) = 2147483648 := by norm_num
  have h32 : ((2 : ℤ) ^ 32) = 4294967296 := by norm_num
  refine ⟨rfl, ?_, ?_, ?_, ?_⟩
  · simp only [toInt32, h31, h32]
    omega
  · simp only [toInt32, h31, h32]
    omega
  · refine ⟨(t + 2 ^ 31) / 2 ^ 32, ?_⟩
    simp only [toInt32, h31, h32]
    omega
  · intro h heq
    rw [toInt32, h31, h32] at heq
    rw [h31] at h
    omega

/-- Witness for C10 at the first epoch second past the signed 32-bit
range, 2^31 = 2147483648 (2038-01-19T03:14:08Z): the encoded timestamp
differs from the true epoch seconds. -/
theorem newTimeMachineRequest_timestampTruncated_witness :
    ((2147483648 : ℤ) < -(2 ^ 31) ∨ (2 : ℤ) ^ 31 - 1 < 2147483648) ∧
    toInt32 2147483648 ≠ 2147483648 :=
  ⟨Or.inr (by norm_num),
    (newTimeMachineRequest_timestampTruncated "k" 0 0 2147483648).2.2.2.2
      (Or.inr (by norm_num))⟩

end Darksky
